import Mathlib

/-!
Shallow embedding of the review HTTP handler layer of
`internal/controller/http/v1/handler/review.go` (package `handler`),
together with the entity types it manipulates (from `entity`, whose field
layout is documented in `docs/swagger.yaml`).

Each Go handler becomes a pure Lean function from an explicit request
value (path parameter, query string, bound JSON body, headers, multipart
state) and a repository oracle to a `HandlerResult`: the HTTP response
written plus the ordered list of repository/storage calls performed.
Repository and storage behaviour that lives outside the provided sources
is modelled from the specification and marked as such in doc comments.
-/

namespace ReviewHandler

/-- Embeds `entity.Review` (field layout per `docs/swagger.yaml`): the review
record.  Field defaults are the Go zero values, so that a Go composite
literal that sets only some fields is mirrored by a Lean structure
instance that sets the same fields. -/
structure Review where
  ID : String := ""
  BusinessID : String := ""
  UserID : String := ""
  Rating : Int := 0
  Feedback : String := ""
  Photos : String := ""
  CreatedAt : String := ""
  deriving Repr, DecidableEq

/-- Embeds `entity.ReviewList`: a page of reviews together with the total count
of rows matching the filter. -/
structure ReviewList where
  Reviews : List Review := []
  Count : Int := 0
  deriving Repr, DecidableEq

/-- Embeds `entity.Filter`: one column/operator/value filter triple.  The Go
field named `Type` is rendered `Type'` because `Type` is a Lean keyword. -/
structure Filter where
  Column : String
  Type' : String
  Value : String
  deriving Repr, DecidableEq

/-- Embeds `entity.OrderBy`: one column/direction order-by clause. -/
structure OrderBy where
  Column : String
  Order : String
  deriving Repr, DecidableEq

/-- Embeds `entity.GetListFilter`: the generic list-query value built by the
handlers (page, limit, filter triples, order-by clauses). -/
structure GetListFilter where
  Page : Int := 0
  Limit : Int := 0
  Filters : List Filter := []
  OrderBy : List OrderBy := []
  deriving Repr, DecidableEq

/-- The JSON bodies this handler file can write. -/
inductive Body where
  /-- a single review serialized as JSON -/
  | review (r : Review)
  /-- a review list serialized as JSON -/
  | reviewList (l : ReviewList)
  /-- the uniform `entity.ErrorResponse` envelope `{code, message}` -/
  | errorEnvelope (code message : String)
  /-- an ad-hoc `gin.H` string map (used by the UUID-format rejection) -/
  | ginH (pairs : List (String × String))
  /-- a raw Go `error` value serialized directly (no envelope) -/
  | rawError (err : String)
  /-- the `entity.SuccessResponse` body `(message)` -/
  | successMessage (message : String)
  deriving Repr, DecidableEq

/-- An HTTP response as written by `ctx.JSON(status, body)`. -/
structure Response where
  status : Int
  body : Body
  deriving Repr, DecidableEq

/-- One call into the repository or storage layer, with its arguments. -/
inductive RepoCall where
  | create (r : Review)
  | getSingle (id : String)
  | getList (f : GetListFilter)
  | update (r : Review)
  | delete (id : String)
  | minioUpload (key localPath : String)
  deriving Repr, DecidableEq

/-- The observable outcome of one handler invocation: the response
written and the ordered repository/storage calls performed. -/
structure HandlerResult where
  response : Response
  calls : List RepoCall
  deriving Repr, DecidableEq

/-- The review repository interface, as an oracle: each capability
either succeeds with its result or fails with an error string. -/
structure ReviewRepoOracle where
  create : Review → Except String Review
  getSingle : String → Except String Review
  getList : GetListFilter → Except String ReviewList
  update : Review → Except String Review
  delete : String → Except String Unit

/-- Modelled from the spec: `config.ErrorBadRequest`, the error code for
malformed or missing input (§7 taxonomy `BadRequest`). -/
def ErrorBadRequest : String := "BAD_REQUEST"

/-- Modelled from the spec: `Handler.ReturnError(ctx, code, message,
status)` writes the uniform `{code, message}` failure envelope with the
given HTTP status (§4.4, §6). -/
def ReturnError (code message : String) (status : Int) : Response :=
  { status := status, body := Body.errorEnvelope code message }

/-- Modelled from the spec: the response `Handler.HandleDbError` writes
when its error argument is non-nil.  Per §4.4 failures are classified
into a status plus the `{code, message}` envelope, per §6 the review
endpoints surface failures as 400 `ErrorResponse`, and per §4.1 a
malformed body is a `BadRequest` kind; the contextual message passed by
the handler accompanies the envelope. -/
def dbErrorResponse (msg : String) : Response :=
  { status := 400, body := Body.errorEnvelope ErrorBadRequest msg }

/-- Go `strconv.Atoi`: optional sign followed by one or more decimal
digits; anything else is a syntax error, reported here as `none`.
(64-bit range errors are not modelled; no claim depends on them.) -/
def atoiDigits : List Char → Nat → Option Nat
  | [], acc => some acc
  | c :: cs, acc =>
    if '0' ≤ c ∧ c ≤ '9' then atoiDigits cs (acc * 10 + (c.toNat - '0'.toNat))
    else none

/-- Go `strconv.Atoi`, on a whole string. -/
def atoi (s : String) : Option Int :=
  match s.toList with
  | [] => none
  | '+' :: cs => if cs = [] then none else (atoiDigits cs 0).map Int.ofNat
  | '-' :: cs => if cs = [] then none else (atoiDigits cs 0).map (fun n => -(Int.ofNat n))
  | cs => (atoiDigits cs 0).map Int.ofNat

/-- The value the handler keeps from `n, _ := strconv.Atoi(s)`: the
parsed integer, or Go's zero value on a syntax error. -/
def atoiOrZero (s : String) : Int := (atoi s).getD 0

/-- Hexadecimal digit test, as accepted by `github.com/google/uuid`. -/
def isHexDigit (c : Char) : Bool :=
  ('0' ≤ c ∧ c ≤ '9') ∨ ('a' ≤ c ∧ c ≤ 'f') ∨ ('A' ≤ c ∧ c ≤ 'F')

/-- The canonical 36-character UUID layout `xxxxxxxx-xxxx-xxxx-xxxx-xxxxxxxxxxxx`:
hyphens at offsets 8, 13, 18, 23 and hex digits everywhere else. -/
def uuidCanonical (cs : List Char) : Bool :=
  cs.length = 36 &&
  (List.range 36).all fun i =>
    if i = 8 ∨ i = 13 ∨ i = 18 ∨ i = 23 then cs.getD i ' ' = '-'
    else isHexDigit (cs.getD i ' ')

/-- Whether `uuid.Parse` (from `github.com/google/uuid`, an external
dependency) succeeds: the canonical form, the `urn:uuid:` form, the
braced form, or the 32-hex-digit form. -/
def uuidParseOk (s : String) : Bool :=
  let cs := s.toList
  if cs.length = 36 then uuidCanonical cs
  else if cs.length = 45 then
    decide ((cs.take 9).map Char.toLower = "urn:uuid:".toList) && uuidCanonical (cs.drop 9)
  else if cs.length = 38 then
    decide (cs.getD 0 ' ' = '{' ∧ cs.getD 37 ' ' = '}') && uuidCanonical ((cs.drop 1).take 36)
  else if cs.length = 32 then cs.all isHexDigit
  else false

/-- Gin's `ctx.DefaultQuery(key, default)`: the query value when the key
is present (even with an empty value), the default otherwise. -/
def DefaultQuery (v : Option String) (d : String) : String := v.getD d

/-! ## The handlers, one definition per Go function -/

/-- The input to `CreateReview`: the outcome of `ctx.BindJSON` on the
request body, and the `sub` request header. -/
structure CreateReviewRequest where
  body : Except String Review
  sub : String
  deriving Repr

/-- Embeds `Handler.CreateReview`: bind the body (failures routed through
`HandleDbError`), overwrite `UserID` with the `sub` header, delegate to
`ReviewRepo.Create`, reply 200 with the created review. -/
def CreateReview (rq : CreateReviewRequest) (repo : ReviewRepoOracle) :
    HandlerResult :=
  match rq.body with
  | Except.error _ =>
    { response := dbErrorResponse "Error getting review", calls := [] }
  | Except.ok req0 =>
    let req := { req0 with UserID := rq.sub }
    match repo.create req with
    | Except.error _ =>
      { response := dbErrorResponse "Error creating review"
        calls := [RepoCall.create req] }
    | Except.ok res =>
      { response := { status := 200, body := Body.review res }
        calls := [RepoCall.create req] }

/-- Embeds `Handler.GetReview`: read the `id` path parameter, delegate to
`ReviewRepo.GetSingle`, reply 200 with the review. -/
def GetReview (id : String) (repo : ReviewRepoOracle) : HandlerResult :=
  match repo.getSingle id with
  | Except.error _ =>
    { response := dbErrorResponse "Error getting review"
      calls := [RepoCall.getSingle id] }
  | Except.ok review =>
    { response := { status := 200, body := Body.review review }
      calls := [RepoCall.getSingle id] }

/-- The query string of a `GET /review/list` request: each parameter is
`some value` when present, `none` when absent. -/
structure ReviewListQuery where
  page : Option String := none
  limit : Option String := none
  business_id : Option String := none
  deriving Repr, DecidableEq

/-- The `entity.GetListFilter` value `GetReviews` builds before calling
the repository: page and limit via `strconv.Atoi` with defaults "1" and
"10", one `business_id eq` filter triple, one `created_at desc`
order-by clause. -/
def reviewListFilter (q : ReviewListQuery) : GetListFilter :=
  let page := DefaultQuery q.page "1"
  let limit := DefaultQuery q.limit "10"
  let businessID := DefaultQuery q.business_id ""
  { Page := atoiOrZero page
    Limit := atoiOrZero limit
    Filters := [{ Column := "business_id", Type' := "eq", Value := businessID }]
    OrderBy := [{ Column := "created_at", Order := "desc" }] }

/-- Embeds `Handler.GetReviews`: build the list filter, reject with 404 and the
`gin.H` body when `business_id` is non-empty and `uuid.Parse` fails,
otherwise delegate to `ReviewRepo.GetList` and reply 200. -/
def GetReviews (q : ReviewListQuery) (repo : ReviewRepoOracle) :
    HandlerResult :=
  let businessID := DefaultQuery q.business_id ""
  let req := reviewListFilter q
  if (!uuidParseOk businessID) && (businessID != "") then
    { response :=
        { status := 404
          body := Body.ginH [("Error:", "Wrong format type please write UUID")] }
      calls := [] }
  else
    match repo.getList req with
    | Except.error _ =>
      { response := dbErrorResponse "Error getting reviews"
        calls := [RepoCall.getList req] }
    | Except.ok reviews =>
      { response := { status := 200, body := Body.reviewList reviews }
        calls := [RepoCall.getList req] }

/-- The input to `UpdateReview`: the outcome of `ctx.ShouldBindJSON`. -/
structure UpdateReviewRequest where
  body : Except String Review
  deriving Repr

/-- Embeds `Handler.UpdateReview`: bind the body, answering
`ReturnError(BadRequest, "Invalid request body", 400)` on failure,
delegate to `ReviewRepo.Update`, reply 200 with the updated review. -/
def UpdateReview (rq : UpdateReviewRequest) (repo : ReviewRepoOracle) :
    HandlerResult :=
  match rq.body with
  | Except.error _ =>
    { response := ReturnError ErrorBadRequest "Invalid request body" 400
      calls := [] }
  | Except.ok body =>
    match repo.update body with
    | Except.error _ =>
      { response := dbErrorResponse "Error updating review"
        calls := [RepoCall.update body] }
    | Except.ok review =>
      { response := { status := 200, body := Body.review review }
        calls := [RepoCall.update body] }

/-- Embeds `Handler.DeleteReview`: read the `id` path parameter, delegate to
`ReviewRepo.Delete`, reply 200 with a success message. -/
def DeleteReview (id : String) (repo : ReviewRepoOracle) : HandlerResult :=
  match repo.delete id with
  | Except.error _ =>
    { response := dbErrorResponse "Error deleting review"
      calls := [RepoCall.delete id] }
  | Except.ok _ =>
    { response :=
        { status := 200
          body := Body.successMessage "Review deleted successfully" }
      calls := [RepoCall.delete id] }

/-- The input to `SetReviewImage`: the `id` path parameter, the uploaded
file's original filename when `ctx.FormFile("file")` succeeds, the
outcome of `ctx.SaveUploadedFile` (the error when it fails), and the
string of the fresh `uuid.New()` drawn by this invocation. -/
structure SetReviewImageRequest where
  id : String
  file : Option String
  saveErr : Option String
  freshUUID : String
  deriving Repr, DecidableEq

/-- Embeds `Handler.SetReviewImage`: require a non-empty id and a multipart
file, save the file to `/tmp/<filename>` (on failure: raw error, 500),
upload it under the key `<fresh-uuid>-<filename>`, then update the
review record with only `ID` and `Photos` set and reply 200. -/
def SetReviewImage (rq : SetReviewImageRequest)
    (minioUpload : String → String → Except String String)
    (repo : ReviewRepoOracle) : HandlerResult :=
  if rq.id = "" then
    { response := ReturnError ErrorBadRequest "Review ID is required in path" 400
      calls := [] }
  else
    match rq.file with
    | none =>
      { response := ReturnError ErrorBadRequest "Error getting file" 400
        calls := [] }
    | some origName =>
      let tempPath := "/tmp/" ++ origName
      match rq.saveErr with
      | some e =>
        { response := { status := 500, body := Body.rawError e }, calls := [] }
      | none =>
        let filename := rq.freshUUID ++ "-" ++ origName
        match minioUpload filename tempPath with
        | Except.error _ =>
          { response := dbErrorResponse "Error uploading review image"
            calls := [RepoCall.minioUpload filename tempPath] }
        | Except.ok minioURL =>
          let updateReq : Review := { ID := rq.id, Photos := minioURL }
          match repo.update updateReq with
          | Except.error _ =>
            { response := dbErrorResponse "Error updating review image"
              calls := [RepoCall.minioUpload filename tempPath,
                        RepoCall.update updateReq] }
          | Except.ok updatedReview =>
            { response := { status := 200, body := Body.review updatedReview }
              calls := [RepoCall.minioUpload filename tempPath,
                        RepoCall.update updateReq] }

/-! ## Spec-modelled repository and storage semantics

The repository implementation (`ReviewRepo`) and the object-storage
client (`MinIO`) are part of this repository but not among the provided
sources; the definitions below model the behaviour the specification
describes for them, over an explicit store of review rows. -/

/-- The value a filter predicate compares against: the review's column
of the given name (string columns only; filters built by this handler
layer only target `business_id`). -/
def columnValue (r : Review) (c : String) : String :=
  if c = "id" then r.ID
  else if c = "business_id" then r.BusinessID
  else if c = "user_id" then r.UserID
  else if c = "feedback" then r.Feedback
  else if c = "photos" then r.Photos
  else if c = "created_at" then r.CreatedAt
  else ""

/-- Modelled from the spec: the repository's `GetList` "applies filter
predicates (equality by default)" (§4.2), and per the observed behaviour
recorded in §8 a filter whose value is the empty string is not applied
(the empty `business_id` query returns all reviews). -/
def filterMatches (f : Filter) (r : Review) : Bool :=
  if f.Value = "" then true
  else columnValue r f.Column = f.Value

/-- The rows of a store matching every filter triple of a list query. -/
def applyFilters (fs : List Filter) (rows : List Review) : List Review :=
  rows.filter fun r => fs.all (filterMatches · r)

/-- Modelled from the spec: `ReviewRepo.GetList` applies the filter
predicates, then offset `(page-1)*limit` and `limit`, and returns the
page together with the total matching count (§4.2).  The order-by
clauses are not modelled (no claim depends on the sort order of the
returned page). -/
def getListSpec (store : List Review) (f : GetListFilter) : ReviewList :=
  let matched := applyFilters f.Filters store
  { Reviews := (matched.drop ((f.Page - 1) * f.Limit).toNat).take f.Limit.toNat
    Count := matched.length }

/-- Lookup by identifier (`find?`): the stored review with the given id. -/
def findReview (store : List Review) (id : String) : Option Review :=
  store.find? fun r => r.ID = id

/-- Modelled from the spec: `ReviewRepo.Update` is a full-record replace
keyed by the entity's identifier, failing with `NotFound` when the
identifier does not exist (§4.2). -/
def updateSpec (store : List Review) (r : Review) :
    Except String (Review × List Review) :=
  if store.any (fun x => x.ID = r.ID) then
    Except.ok (r, store.map fun x => if x.ID = r.ID then r else x)
  else Except.error "NotFound"

/-- Modelled from the spec: `MinIO.Upload(key, localPath)` streams the
file to the storage backend and returns a retrievable URL for the
destination key (§4.3); the URL locates the object by its key. -/
def minioUploadSpec (base : String) (key : String) (_localPath : String) :
    Except String String :=
  Except.ok (base ++ "/" ++ key)

/-- The review repository over an explicit store, with each capability
behaving as §4.2 describes. -/
def storeOracle (store : List Review) : ReviewRepoOracle where
  create r := Except.ok r
  getSingle id :=
    match findReview store id with
    | some r => Except.ok r
    | none => Except.error "NotFound"
  getList f := Except.ok (getListSpec store f)
  update r := (updateSpec store r).map Prod.fst
  delete id :=
    if store.any (fun x => x.ID = id) then Except.ok ()
    else Except.error "NotFound"

/-- The store after one repository call: `Update` replaces the matching
record in place (full-record replace, §4.2); reads and storage uploads
leave the store unchanged.  (`Create`/`Delete` are never reached by the
handlers whose state evolution the claims examine.) -/
def applyCall (store : List Review) : RepoCall → List Review
  | RepoCall.update r =>
    if store.any (fun x => x.ID = r.ID) then
      store.map fun x => if x.ID = r.ID then r else x
    else store
  | _ => store

/-- Run `SetReviewImage` against the store-backed repository and the
spec-modelled uploader, returning the handler result and the store
after the calls it made. -/
def runSetReviewImage (base : String) (store : List Review)
    (rq : SetReviewImageRequest) : HandlerResult × List Review :=
  let res := SetReviewImage rq (minioUploadSpec base) (storeOracle store)
  (res, res.calls.foldl applyCall store)

/-- A repository oracle every capability of which fails: used to
instantiate universally quantified theorems at a concrete input. -/
def failRepo : ReviewRepoOracle where
  create _ := Except.error "db"
  getSingle _ := Except.error "db"
  getList _ := Except.error "db"
  update _ := Except.error "db"
  delete _ := Except.error "db"

/-! ## Helper lemmas -/

theorem string_append_assoc (a b c : String) : a ++ b ++ c = a ++ (b ++ c) := by
  rcases a with ⟨a⟩
  rcases b with ⟨b⟩
  rcases c with ⟨c⟩
  show String.mk ((a ++ b) ++ c) = String.mk (a ++ (b ++ c))
  rw [List.append_assoc]

/-- Replacing the record with identifier `r.ID` keeps a record with that
identifier in the store. -/
theorem any_id_replace (store : List Review) (r : Review)
    (h : store.any (fun x => x.ID = r.ID) = true) :
    (store.map fun x => if x.ID = r.ID then r else x).any
      (fun x => x.ID = r.ID) = true := by
  rw [List.any_eq_true] at h ⊢
  rcases h with ⟨x, hx, hxid⟩
  refine ⟨if x.ID = r.ID then r else x, List.mem_map_of_mem _ hx, ?_⟩
  simp at hxid
  simp [hxid]

/-- After a full-record replace keyed on `r.ID`, the record found under
`r.ID` is `r` itself. -/
theorem find_replace_eq (store : List Review) (r r' : Review)
    (h : findReview (store.map fun x => if x.ID = r.ID then r else x) r.ID =
      some r') : r' = r := by
  unfold findReview at h
  have hmem := List.mem_of_find?_eq_some h
  have hpred := List.find?_some h
  simp at hpred
  rcases List.mem_map.mp hmem with ⟨x, hx, hfx⟩
  by_cases hxi : x.ID = r.ID
  · rw [if_pos hxi] at hfx
    exact hfx.symm
  · rw [if_neg hxi] at hfx
    rw [hfx] at hxi
    exact absurd hpred hxi

/-- The outcome of a `SetReviewImage` run over the store-backed
repository when the id is present, the file binds, the temporary save
succeeds, and a review with the given id exists. -/
theorem runSetReviewImage_success (base : String) (store : List Review)
    (rq : SetReviewImageRequest) (f : String) (hid : rq.id ≠ "")
    (hf : rq.file = some f) (hs : rq.saveErr = none)
    (hmem : store.any (fun x => x.ID = rq.id) = true) :
    runSetReviewImage base store rq =
      ({ response :=
           { status := 200
             body := Body.review
               { ID := rq.id
                 Photos := base ++ "/" ++ (rq.freshUUID ++ "-" ++ f) } }
         calls := [RepoCall.minioUpload (rq.freshUUID ++ "-" ++ f) ("/tmp/" ++ f),
                   RepoCall.update
                     { ID := rq.id
                       Photos := base ++ "/" ++ (rq.freshUUID ++ "-" ++ f) }] },
       store.map fun x =>
         if x.ID = rq.id then
           ({ ID := rq.id
              Photos := base ++ "/" ++ (rq.freshUUID ++ "-" ++ f) } : Review)
         else x) := by
  unfold runSetReviewImage SetReviewImage
  rw [if_neg hid, hf, hs]
  dsimp only [minioUploadSpec, storeOracle, updateSpec]
  rw [if_pos hmem]
  dsimp only [Except.map, applyCall, List.foldl]
  rw [if_pos hmem]

/-! ## Claims -/

/-- C1: for every `GET /review/list` request whose `business_id` query
parameter is non-empty and not a valid UUID, `GetReviews` responds with
HTTP 404 and body `{"Error:": "Wrong format type please write UUID"}`,
and performs no repository call (in particular no `GetList`). -/
theorem c1_invalid_business_id_rejected (q : ReviewListQuery)
    (repo : ReviewRepoOracle) (s : String) (hq : q.business_id = some s)
    (hne : s ≠ "") (hbad : uuidParseOk s = false) :
    GetReviews q repo =
      { response :=
          { status := 404
            body := Body.ginH [("Error:", "Wrong format type please write UUID")] }
        calls := [] } := by
  unfold GetReviews
  simp [DefaultQuery, hq, hbad, hne]

/-- Witness for C1 at the concrete input `business_id = "not-a-uuid"`. -/
theorem c1_invalid_business_id_rejected_witness :
    uuidParseOk "not-a-uuid" = false ∧ "not-a-uuid" ≠ "" ∧
    GetReviews { business_id := some "not-a-uuid" } failRepo =
      { response :=
          { status := 404
            body := Body.ginH [("Error:", "Wrong format type please write UUID")] }
        calls := [] } :=
  ⟨by decide, by decide,
    c1_invalid_business_id_rejected { business_id := some "not-a-uuid" }
      failRepo "not-a-uuid" rfl (by decide) (by decide)⟩

/-- C3: in `GetReviews`, an absent `page` yields `Page = 1` and an
absent `limit` yields `Limit = 10`; a present but non-numeric `page` or
`limit` silently yields `0` in the corresponding field, and the request
is not rejected for it — the repository's `GetList` is still called
(here: whenever `business_id` is absent). -/
theorem c3_page_limit_defaults_and_zeroing (q : ReviewListQuery)
    (repo : ReviewRepoOracle) :
    (q.page = none → (reviewListFilter q).Page = 1) ∧
    (q.limit = none → (reviewListFilter q).Limit = 10) ∧
    (∀ s, q.page = some s → atoi s = none → (reviewListFilter q).Page = 0) ∧
    (∀ s, q.limit = some s → atoi s = none → (reviewListFilter q).Limit = 0) ∧
    (q.business_id = none →
      (GetReviews q repo).calls = [RepoCall.getList (reviewListFilter q)]) := by
  refine ⟨?_, ?_, ?_, ?_, ?_⟩
  · intro h
    simp [reviewListFilter, DefaultQuery, h]
    decide
  · intro h
    simp [reviewListFilter, DefaultQuery, h]
    decide
  · intro s hs hbad
    simp [reviewListFilter, DefaultQuery, hs, atoiOrZero, hbad]
  · intro s hs hbad
    simp [reviewListFilter, DefaultQuery, hs, atoiOrZero, hbad]
  · intro h
    unfold GetReviews
    simp [DefaultQuery, h]
    cases repo.getList (reviewListFilter q) <;> simp

/-- Witness for C3 at the concrete input `page = "abc"`, `limit`
absent, `business_id` absent. -/
theorem c3_page_limit_defaults_and_zeroing_witness :
    atoi "abc" = none ∧
    (reviewListFilter { page := some "abc" }).Page = 0 ∧
    (reviewListFilter { page := some "abc" }).Limit = 10 ∧
    (GetReviews { page := some "abc" } failRepo).calls =
      [RepoCall.getList (reviewListFilter { page := some "abc" })] :=
  ⟨by decide,
    (c3_page_limit_defaults_and_zeroing { page := some "abc" } failRepo).2.2.1
      "abc" rfl (by decide),
    (c3_page_limit_defaults_and_zeroing { page := some "abc" } failRepo).2.1 rfl,
    (c3_page_limit_defaults_and_zeroing { page := some "abc" } failRepo).2.2.2.2 rfl⟩

/-- C4: every filter value `GetReviews` passes to the repository's
`GetList` carries the order-by clause `created_at desc`. -/
theorem c4_order_by_created_at_desc (q : ReviewListQuery)
    (repo : ReviewRepoOracle) (f : GetListFilter)
    (h : RepoCall.getList f ∈ (GetReviews q repo).calls) :
    OrderBy.mk "created_at" "desc" ∈ f.OrderBy := by
  unfold GetReviews at h
  dsimp only at h
  split at h
  · simp at h
  · split at h <;>
    · simp at h
      simp [h, reviewListFilter]

/-- Witness for C4 at the concrete empty query. -/
theorem c4_order_by_created_at_desc_witness :
    OrderBy.mk "created_at" "desc" ∈
      (reviewListFilter { page := none, limit := none, business_id := none }).OrderBy :=
  c4_order_by_created_at_desc { page := none, limit := none, business_id := none }
    failRepo _ (by decide)

/-- C2: when the `business_id` query parameter is absent or empty,
`GetReviews` responds 200 with the repository's list result, and the
filter it passes to `GetList` carries no effective `business_id`
equality predicate: applied to any set of rows, the filter list keeps
every row, and the reported count is the whole store. -/
theorem c2_empty_business_id_lists_all (q : ReviewListQuery)
    (store : List Review)
    (hq : q.business_id = none ∨ q.business_id = some "") :
    (GetReviews q (storeOracle store)).response.status = 200 ∧
    (GetReviews q (storeOracle store)).response.body =
      Body.reviewList (getListSpec store (reviewListFilter q)) ∧
    (GetReviews q (storeOracle store)).calls =
      [RepoCall.getList (reviewListFilter q)] ∧
    (∀ rows : List Review, applyFilters (reviewListFilter q).Filters rows = rows) ∧
    (getListSpec store (reviewListFilter q)).Count = store.length := by
  have hb : DefaultQuery q.business_id "" = "" := by
    rcases hq with h | h <;> simp [DefaultQuery, h]
  have hfilters : ∀ rows : List Review,
      applyFilters (reviewListFilter q).Filters rows = rows := by
    intro rows
    simp [reviewListFilter, hb, applyFilters, filterMatches]
  have hrun : GetReviews q (storeOracle store) =
      { response :=
          { status := 200
            body := Body.reviewList (getListSpec store (reviewListFilter q)) }
        calls := [RepoCall.getList (reviewListFilter q)] } := by
    unfold GetReviews
    simp [hb, storeOracle]
  refine ⟨by rw [hrun], by rw [hrun], by rw [hrun], hfilters, ?_⟩
  simp [getListSpec, hfilters store]

/-- Witness for C2 at the empty query over a two-review store. -/
theorem c2_empty_business_id_lists_all_witness :
    (GetReviews { business_id := none }
        (storeOracle [{ ID := "r1", BusinessID := "b1" },
                      { ID := "r2", BusinessID := "b2" }])).response.status = 200 ∧
    (getListSpec [{ ID := "r1", BusinessID := "b1" },
                  { ID := "r2", BusinessID := "b2" }]
        (reviewListFilter { business_id := none })).Count = 2 := by
  have h := c2_empty_business_id_lists_all { business_id := none }
    [{ ID := "r1", BusinessID := "b1" }, { ID := "r2", BusinessID := "b2" }]
    (Or.inl rfl)
  exact ⟨h.1, h.2.2.2.2⟩

/-- C5: the review `CreateReview` passes to the repository's `Create`
has `UserID` equal to the `sub` request header, and two requests whose
bound bodies differ only in `UserID` (with the same `sub` header)
produce identical handler results — the body's `user_id` has no
influence. -/
theorem c5_user_id_taken_from_sub_header (rq₁ rq₂ : CreateReviewRequest)
    (repo : ReviewRepoOracle) :
    (∀ r, RepoCall.create r ∈ (CreateReview rq₁ repo).calls →
      r.UserID = rq₁.sub) ∧
    (∀ r₁ r₂, rq₁.sub = rq₂.sub → rq₁.body = Except.ok r₁ →
      rq₂.body = Except.ok r₂ → r₂ = { r₁ with UserID := r₂.UserID } →
      CreateReview rq₁ repo = CreateReview rq₂ repo) := by
  constructor
  · intro r hr
    unfold CreateReview at hr
    rcases hbody : rq₁.body with e | req0 <;> rw [hbody] at hr <;> dsimp only at hr
    · simp at hr
    · rcases hcr : repo.create { req0 with UserID := rq₁.sub } with e' | res <;>
        rw [hcr] at hr <;> simp at hr <;> simp [hr]
  · intro r₁ r₂ hsub h₁ h₂ hdiff
    have hreq : ({ r₁ with UserID := rq₁.sub } : Review) =
        { r₂ with UserID := rq₂.sub } := by
      cases r₁
      cases r₂
      simp_all
    unfold CreateReview
    rw [h₁, h₂]
    dsimp only
    rw [hreq]

/-- Witness for C5: two concrete bodies differing only in `user_id`
under the same `sub` header give the same result, and the created
review's `UserID` is the header value. -/
theorem c5_user_id_taken_from_sub_header_witness :
    CreateReview { body := Except.ok { BusinessID := "b", UserID := "attacker" },
                   sub := "user-1" } failRepo =
      CreateReview { body := Except.ok { BusinessID := "b", UserID := "other" },
                     sub := "user-1" } failRepo ∧
    (Review.UserID { BusinessID := "b", UserID := "attacker", ID := "",
                     Rating := 0, Feedback := "", Photos := "",
                     CreatedAt := "" } = "attacker") ∧
    ∀ r, RepoCall.create r ∈
        (CreateReview { body := Except.ok { BusinessID := "b", UserID := "attacker" },
                        sub := "user-1" } failRepo).calls →
      r.UserID = "user-1" := by
  refine ⟨?_, rfl, ?_⟩
  · exact (c5_user_id_taken_from_sub_header
      { body := Except.ok { BusinessID := "b", UserID := "attacker" }, sub := "user-1" }
      { body := Except.ok { BusinessID := "b", UserID := "other" }, sub := "user-1" }
      failRepo).2 _ _ rfl rfl rfl (by decide)
  · exact (c5_user_id_taken_from_sub_header
      { body := Except.ok { BusinessID := "b", UserID := "attacker" }, sub := "user-1" }
      { body := Except.ok { BusinessID := "b", UserID := "other" }, sub := "user-1" }
      failRepo).1

/-- C6: when the bound JSON body is absent or malformed, both
`CreateReview` and `UpdateReview` answer a 400 response carrying the
`{code, message}` error envelope and perform no repository call. -/
theorem c6_malformed_body_bad_request (rqC : CreateReviewRequest)
    (rqU : UpdateReviewRequest) (repo : ReviewRepoOracle) (e e' : String)
    (hC : rqC.body = Except.error e) (hU : rqU.body = Except.error e') :
    ((CreateReview rqC repo).response.status = 400 ∧
     (∃ c m, (CreateReview rqC repo).response.body = Body.errorEnvelope c m) ∧
     (CreateReview rqC repo).calls = []) ∧
    ((UpdateReview rqU repo).response.status = 400 ∧
     (UpdateReview rqU repo).response =
       ReturnError ErrorBadRequest "Invalid request body" 400 ∧
     (UpdateReview rqU repo).calls = []) := by
  unfold CreateReview UpdateReview
  rw [hC, hU]
  exact ⟨⟨rfl, ⟨ErrorBadRequest, "Error getting review", rfl⟩, rfl⟩,
    rfl, rfl, rfl⟩

/-- Witness for C6 at a concrete malformed-body outcome. -/
theorem c6_malformed_body_bad_request_witness :
    (CreateReview { body := Except.error "EOF", sub := "u" } failRepo).calls = [] ∧
    (UpdateReview { body := Except.error "EOF" } failRepo).response.status = 400 :=
  ⟨(c6_malformed_body_bad_request { body := Except.error "EOF", sub := "u" }
      { body := Except.error "EOF" } failRepo "EOF" "EOF" rfl rfl).1.2.2,
   (c6_malformed_body_bad_request { body := Except.error "EOF", sub := "u" }
      { body := Except.error "EOF" } failRepo "EOF" "EOF" rfl rfl).2.1⟩

/-- C7: when saving the uploaded file to the temporary path fails,
`SetReviewImage` responds HTTP 500 with the raw underlying error as the
body — a `Body.rawError`, which is never equal to the uniform
`{code, message}` envelope used by the other failure paths — and makes
no repository or storage call. -/
theorem c7_save_failure_returns_raw_error (rq : SetReviewImageRequest)
    (minioUpload : String → String → Except String String)
    (repo : ReviewRepoOracle) (f e : String) (hid : rq.id ≠ "")
    (hf : rq.file = some f) (hs : rq.saveErr = some e) :
    SetReviewImage rq minioUpload repo =
      { response := { status := 500, body := Body.rawError e }, calls := [] } ∧
    ∀ c m, Body.rawError e ≠ Body.errorEnvelope c m := by
  constructor
  · unfold SetReviewImage
    rw [if_neg hid, hf, hs]
  · intro c m h
    cases h

/-- Witness for C7 at a concrete failed save. -/
theorem c7_save_failure_returns_raw_error_witness :
    SetReviewImage { id := "r1", file := some "pic.png",
                     saveErr := some "disk full", freshUUID := "u0" }
      (minioUploadSpec "https://minio") failRepo =
      { response := { status := 500, body := Body.rawError "disk full" }
        calls := [] } :=
  (c7_save_failure_returns_raw_error
    { id := "r1", file := some "pic.png", saveErr := some "disk full",
      freshUUID := "u0" }
    (minioUploadSpec "https://minio") failRepo "pic.png" "disk full"
    (by decide) rfl rfl).1

/-- C8: a successful image upload responds 200 with the updated review
whose `Photos` field is the storage URL for the key
`<fresh-uuid>-<filename>` (so the URL ends in the uploaded filename),
and a second successful upload for the same review replaces the stored
`Photos` value with the new URL rather than appending to it. -/
theorem c8_upload_sets_and_overwrites_photos (base : String)
    (store : List Review) (id f₁ f₂ u₁ u₂ : String) (hid : id ≠ "")
    (hmem : store.any (fun x => x.ID = id) = true) :
    ((runSetReviewImage base store ⟨id, some f₁, none, u₁⟩).1.response =
      { status := 200
        body := Body.review
          { ID := id, Photos := base ++ "/" ++ (u₁ ++ "-" ++ f₁) } }) ∧
    (∃ p, base ++ "/" ++ (u₁ ++ "-" ++ f₁) = p ++ f₁) ∧
    ((runSetReviewImage base
        (runSetReviewImage base store ⟨id, some f₁, none, u₁⟩).2
        ⟨id, some f₂, none, u₂⟩).1.response =
      { status := 200
        body := Body.review
          { ID := id, Photos := base ++ "/" ++ (u₂ ++ "-" ++ f₂) } }) ∧
    (∀ r, findReview (runSetReviewImage base
        (runSetReviewImage base store ⟨id, some f₁, none, u₁⟩).2
        ⟨id, some f₂, none, u₂⟩).2 id = some r →
      r.Photos = base ++ "/" ++ (u₂ ++ "-" ++ f₂)) := by
  have h₁ := runSetReviewImage_success base store ⟨id, some f₁, none, u₁⟩ f₁
    hid rfl rfl hmem
  have hmem₁ : ((runSetReviewImage base store ⟨id, some f₁, none, u₁⟩).2).any
      (fun x => x.ID = id) = true := by
    rw [h₁]
    exact any_id_replace store
      { ID := id, Photos := base ++ "/" ++ (u₁ ++ "-" ++ f₁) } hmem
  have h₂ := runSetReviewImage_success base
    (runSetReviewImage base store ⟨id, some f₁, none, u₁⟩).2
    ⟨id, some f₂, none, u₂⟩ f₂ hid rfl rfl hmem₁
  refine ⟨by rw [h₁], ⟨base ++ "/" ++ (u₁ ++ "-"), ?_⟩, by rw [h₂], ?_⟩
  · rw [string_append_assoc (base ++ "/") (u₁ ++ "-") f₁]
  · intro r hr
    rw [h₂] at hr
    have := find_replace_eq _
      { ID := id, Photos := base ++ "/" ++ (u₂ ++ "-" ++ f₂) } r hr
    rw [this]

/-- Witness for C8 over a one-review store, uploading `a.png` then
`b.png`. -/
theorem c8_upload_sets_and_overwrites_photos_witness :
    ((runSetReviewImage "https://minio" [{ ID := "r1", BusinessID := "b1" }]
        ⟨"r1", some "a.png", none, "uuid1"⟩).1.response =
      { status := 200
        body := Body.review
          { ID := "r1"
            Photos := "https://minio" ++ "/" ++ ("uuid1" ++ "-" ++ "a.png") } }) ∧
    (∀ r, findReview (runSetReviewImage "https://minio"
        (runSetReviewImage "https://minio" [{ ID := "r1", BusinessID := "b1" }]
          ⟨"r1", some "a.png", none, "uuid1"⟩).2
        ⟨"r1", some "b.png", none, "uuid2"⟩).2 "r1" = some r →
      r.Photos = "https://minio" ++ "/" ++ ("uuid2" ++ "-" ++ "b.png")) :=
  ⟨(c8_upload_sets_and_overwrites_photos "https://minio"
      [{ ID := "r1", BusinessID := "b1" }] "r1" "a.png" "b.png" "uuid1" "uuid2"
      (by decide) (by decide)).1,
   (c8_upload_sets_and_overwrites_photos "https://minio"
      [{ ID := "r1", BusinessID := "b1" }] "r1" "a.png" "b.png" "uuid1" "uuid2"
      (by decide) (by decide)).2.2.2⟩

/-- C9: path-identified operations perform no format validation on the
identifier: `GetReview` and `DeleteReview` pass any identifier string
(valid UUID or not, even empty) to the repository unchanged, and
`SetReviewImage` checks only non-emptiness — rejecting the empty id
with 400 and no repository call, and otherwise passing the identifier
unchanged into the update it delegates. -/
theorem c9_no_format_validation_on_path_id :
    (∀ (id : String) (repo : ReviewRepoOracle),
      (GetReview id repo).calls = [RepoCall.getSingle id]) ∧
    (∀ (id : String) (repo : ReviewRepoOracle),
      (DeleteReview id repo).calls = [RepoCall.delete id]) ∧
    (∀ (rq : SetReviewImageRequest)
      (minioUpload : String → String → Except String String)
      (repo : ReviewRepoOracle), rq.id = "" →
      SetReviewImage rq minioUpload repo =
        { response := ReturnError ErrorBadRequest "Review ID is required in path" 400
          calls := [] }) ∧
    (∀ (rq : SetReviewImageRequest)
      (minioUpload : String → String → Except String String)
      (repo : ReviewRepoOracle) (f url : String),
      rq.id ≠ "" → rq.file = some f → rq.saveErr = none →
      minioUpload (rq.freshUUID ++ "-" ++ f) ("/tmp/" ++ f) = Except.ok url →
      RepoCall.update { ID := rq.id, Photos := url } ∈
        (SetReviewImage rq minioUpload repo).calls) := by
  refine ⟨?_, ?_, ?_, ?_⟩
  · intro id repo
    unfold GetReview
    rcases repo.getSingle id with e | r <;> rfl
  · intro id repo
    unfold DeleteReview
    rcases repo.delete id with e | u <;> rfl
  · intro rq minioUpload repo hid
    unfold SetReviewImage
    rw [if_pos hid]
  · intro rq minioUpload repo f url hid hf hs hmu
    unfold SetReviewImage
    rw [if_neg hid, hf, hs]
    dsimp only
    rw [hmu]
    dsimp only
    rcases hup : repo.update { ID := rq.id, Photos := url } with e | r <;> simp

/-- Witness for C9: a non-UUID and even an empty identifier reach (or
are rejected before) the repository exactly as the theorem states. -/
theorem c9_no_format_validation_on_path_id_witness :
    (GetReview "not-a-uuid" failRepo).calls =
      [RepoCall.getSingle "not-a-uuid"] ∧
    (DeleteReview "" failRepo).calls = [RepoCall.delete ""] ∧
    (SetReviewImage ⟨"", some "f.png", none, "u"⟩ (minioUploadSpec "b")
        failRepo).calls = [] ∧
    RepoCall.update { ID := "not-a-uuid", Photos := "b" ++ "/" ++ ("u" ++ "-" ++ "f.png") } ∈
      (SetReviewImage ⟨"not-a-uuid", some "f.png", none, "u"⟩
        (minioUploadSpec "b") failRepo).calls := by
  refine ⟨c9_no_format_validation_on_path_id.1 "not-a-uuid" failRepo,
    c9_no_format_validation_on_path_id.2.1 "" failRepo, ?_, ?_⟩
  · rw [c9_no_format_validation_on_path_id.2.2.1
      ⟨"", some "f.png", none, "u"⟩ (minioUploadSpec "b") failRepo rfl]
  · exact c9_no_format_validation_on_path_id.2.2.2
      ⟨"not-a-uuid", some "f.png", none, "u"⟩ (minioUploadSpec "b") failRepo
      "f.png" ("b" ++ "/" ++ ("u" ++ "-" ++ "f.png")) (by decide) rfl rfl rfl

/-- C10: the review `SetReviewImage` passes to the repository's
`Update` carries only `ID` and `Photos`; every other field is the zero
value, the handler never reads the existing review first, and — under
the full-record-replace semantics of `Update` — the stored review's
unrelated fields are overwritten with zero values. -/
theorem c10_update_clobbers_unrelated_fields :
    (∀ (rq : SetReviewImageRequest)
      (minioUpload : String → String → Except String String)
      (repo : ReviewRepoOracle) (r : Review),
      RepoCall.update r ∈ (SetReviewImage rq minioUpload repo).calls →
      r.ID = rq.id ∧ r.BusinessID = "" ∧ r.UserID = "" ∧ r.Rating = 0 ∧
      r.Feedback = "" ∧ r.CreatedAt = "") ∧
    (∀ (rq : SetReviewImageRequest)
      (minioUpload : String → String → Except String String)
      (repo : ReviewRepoOracle) (s : String),
      RepoCall.getSingle s ∉ (SetReviewImage rq minioUpload repo).calls) ∧
    (∀ (base : String) (store : List Review) (rq : SetReviewImageRequest)
      (f : String) (r : Review), rq.id ≠ "" → rq.file = some f →
      rq.saveErr = none → store.any (fun x => x.ID = rq.id) = true →
      findReview (runSetReviewImage base store rq).2 rq.id = some r →
      r.BusinessID = "" ∧ r.UserID = "" ∧ r.Rating = 0 ∧ r.Feedback = "" ∧
      r.CreatedAt = "") := by
  have hcalls : ∀ (rq : SetReviewImageRequest)
      (minioUpload : String → String → Except String String)
      (repo : ReviewRepoOracle) (c : RepoCall),
      c ∈ (SetReviewImage rq minioUpload repo).calls →
      (∃ k p, c = RepoCall.minioUpload k p) ∨
      (∃ url, c = RepoCall.update { ID := rq.id, Photos := url }) := by
    intro rq minioUpload repo c hc
    unfold SetReviewImage at hc
    split at hc
    · simp at hc
    · split at hc
      · simp at hc
      · split at hc
        · simp at hc
        · dsimp only at hc
          split at hc
          · simp at hc
            exact Or.inl ⟨_, _, hc⟩
          · split at hc <;>
            · simp at hc
              rcases hc with hc | hc
              · exact Or.inl ⟨_, _, hc⟩
              · exact Or.inr ⟨_, hc⟩
  refine ⟨?_, ?_, ?_⟩
  · intro rq minioUpload repo r hr
    rcases hcalls rq minioUpload repo _ hr with ⟨k, p, hk⟩ | ⟨url, hu⟩
    · cases hk
    · cases hu
      exact ⟨rfl, rfl, rfl, rfl, rfl, rfl⟩
  · intro rq minioUpload repo s hs
    rcases hcalls rq minioUpload repo _ hs with ⟨k, p, hk⟩ | ⟨url, hu⟩
    · cases hk
    · cases hu
  · intro base store rq f r hid hf hsv hmem hfind
    rw [runSetReviewImage_success base store rq f hid hf hsv hmem] at hfind
    have := find_replace_eq _
      { ID := rq.id, Photos := base ++ "/" ++ (rq.freshUUID ++ "-" ++ f) } r
      hfind
    rw [this]
    exact ⟨rfl, rfl, rfl, rfl, rfl⟩

/-- Witness for C10: in the concrete successful upload, the record
passed to `Update` and the stored record both have zero-valued
unrelated fields. -/
theorem c10_update_clobbers_unrelated_fields_witness :
    (∀ r, RepoCall.update r ∈
        (SetReviewImage ⟨"r1", some "a.png", none, "uuid1"⟩
          (minioUploadSpec "https://minio")
          (storeOracle [{ ID := "r1", BusinessID := "b1", UserID := "u1",
                          Rating := 5, Feedback := "good", Photos := "old",
                          CreatedAt := "t0" }])).calls →
      r.BusinessID = "" ∧ r.UserID = "" ∧ r.Rating = 0) ∧
    (∀ r, findReview (runSetReviewImage "https://minio"
        [{ ID := "r1", BusinessID := "b1", UserID := "u1", Rating := 5,
           Feedback := "good", Photos := "old", CreatedAt := "t0" }]
        ⟨"r1", some "a.png", none, "uuid1"⟩).2 "r1" = some r →
      r.BusinessID = "" ∧ r.UserID = "" ∧ r.Rating = 0 ∧ r.Feedback = "" ∧
      r.CreatedAt = "") := by
  constructor
  · intro r hr
    have h := (c10_update_clobbers_unrelated_fields).1
      ⟨"r1", some "a.png", none, "uuid1"⟩ (minioUploadSpec "https://minio")
      (storeOracle [{ ID := "r1", BusinessID := "b1", UserID := "u1",
                      Rating := 5, Feedback := "good", Photos := "old",
                      CreatedAt := "t0" }]) r hr
    exact ⟨h.2.1, h.2.2.1, h.2.2.2.1⟩
  · intro r hr
    exact (c10_update_clobbers_unrelated_fields).2.2 "https://minio"
      [{ ID := "r1", BusinessID := "b1", UserID := "u1", Rating := 5,
         Feedback := "good", Photos := "old", CreatedAt := "t0" }]
      ⟨"r1", some "a.png", none, "uuid1"⟩ "a.png" r (by decide) rfl rfl
      (by decide) hr

end ReviewHandler
